import Mathlib

/-!
Shallow embedding of `src/sections/layer_and_mask_information_section/layer_mask_data.rs`
(the `read_layer_mask_data` decoder of the `psd` crate), together with a model of
its two external collaborators, the byte cursor (`PsdCursor`) and the error type
(`PsdLayerError`), which are not part of the provided sources and are therefore
modelled from the spec (sections 6 and 7).

Conventions of the embedding:
- machine integers are `Nat` / `Int`; the u32 subtraction `layer_mask_data_len -
  read_count`, which can wrap, is made explicit with `subU32` (subtraction
  modulo `2 ^ 32`, release-mode Rust semantics); the i32 subtraction in
  `height` is likewise wrapped with `wrapI32`;
- `f64` values are carried opaquely as their 8-byte big-endian bit pattern
  (a `Nat`); the decoder never computes with them, and the source's only `f64`
  literal, `0.0`, has bit pattern `0`.
-/

namespace Psd

/-- Modelled from the spec: the error-type collaborator is missing from the
sources; section 7 gives it a single kind, "TruncatedOrMalformedSection, raised
whenever a requested read/skip exceeds available bytes". -/
inductive PsdLayerError where
  | TruncatedOrMalformedSection
  deriving DecidableEq, Repr

/-- Modelled from the spec: the byte-cursor collaborator is missing from the
sources; section 2 describes it as a "sequential reader over a byte buffer"
that "advances an internal position". `data i` is the byte at index `i`
(reduced mod 256 on access), `len` the buffer length, `pos` the position. -/
structure PsdCursor where
  data : Nat → Nat
  len : Nat
  pos : Nat

/-- Byte at index `i` of a buffer. -/
def byteAt (d : Nat → Nat) (i : Nat) : Nat := d i % 256

/-- Big-endian value of the `n` bytes starting at index `p`. -/
def beAt (d : Nat → Nat) (p : Nat) : Nat → Nat
  | 0 => 0
  | n + 1 => beAt d p n * 256 + byteAt d (p + n)

/-- Modelled from the spec (section 6): read `n` bytes as a big-endian
unsigned value, failing "if insufficient bytes remain". -/
def PsdCursor.readN (c : PsdCursor) (n : Nat) :
    Except PsdLayerError (Nat × PsdCursor) :=
  if c.pos + n ≤ c.len then
    .ok (beAt c.data c.pos n, { c with pos := c.pos + n })
  else
    .error .TruncatedOrMalformedSection

/-- Modelled from the spec (section 6): `read_u8`. -/
def PsdCursor.readU8 (c : PsdCursor) : Except PsdLayerError (Nat × PsdCursor) :=
  c.readN 1

/-- Modelled from the spec (section 6): `read_u32`, big-endian. -/
def PsdCursor.readU32 (c : PsdCursor) : Except PsdLayerError (Nat × PsdCursor) :=
  c.readN 4

/-- Interpret a 32-bit unsigned value as two's-complement signed. -/
def toI32 (v : Nat) : Int := if v < 2 ^ 31 then (v : Int) else (v : Int) - 2 ^ 32

/-- Modelled from the spec (section 6): `read_i32`, big-endian two's complement. -/
def PsdCursor.readI32 (c : PsdCursor) : Except PsdLayerError (Int × PsdCursor) :=
  match c.readN 4 with
  | .error e => .error e
  | .ok (v, c) => .ok (toI32 v, c)

/-- Modelled from the spec (section 6): `read_f64`; the value is kept as its
8-byte big-endian bit pattern. -/
def PsdCursor.readF64 (c : PsdCursor) : Except PsdLayerError (Nat × PsdCursor) :=
  c.readN 8

/-- Modelled from the spec (section 6): `read(n) -> discards n bytes`,
failing "if insufficient bytes remain". -/
def PsdCursor.read (c : PsdCursor) (n : Nat) : Except PsdLayerError PsdCursor :=
  if c.pos + n ≤ c.len then
    .ok { c with pos := c.pos + n }
  else
    .error .TruncatedOrMalformedSection

/-! Bit-flag constants of the source file. -/

def POSITION_RELATIVE_TO_LAYER : Nat := 0b00000001
def LAYER_MASK_DISABLED : Nat := 0b00000010
def INVERT_LAYER_MASK_WHEN_BLENDING : Nat := 0b00000100
def USER_MASK_CAME_FROM_RENDERING_OTHER_DATA : Nat := 0b00001000
def MASKS_HAVE_PARAMETERS_APPLIED : Nat := 0b00010000

def USER_MASK_DENSITY : Nat := 0b00000001
def USER_MASK_FEATHER : Nat := 0b00000010
def VECTOR_MASK_DENSITY : Nat := 0b00000100
def VECTOR_MASK_FEATHER : Nat := 0b00001000

/-- `LayerMaskDataInner`: one mask descriptor. `feather` is the f64 bit
pattern (see module docstring). -/
structure LayerMaskDataInner where
  top : Int
  left : Int
  bottom : Int
  right : Int
  default_color : Nat
  flags : Nat
  density : Nat
  feather : Nat
  deriving DecidableEq, Repr

/-- i32 subtraction with two's-complement wrap-around (release-mode Rust). -/
def wrapI32 (x : Int) : Int := (x + 2 ^ 31) % 2 ^ 32 - 2 ^ 31

/-- `LayerMaskDataInner::height`: `self.bottom - self.top` as i32. -/
def LayerMaskDataInner.height (m : LayerMaskDataInner) : Int :=
  wrapI32 (m.bottom - m.top)

def LayerMaskDataInner.position_relative_to_layer (m : LayerMaskDataInner) : Bool :=
  m.flags &&& POSITION_RELATIVE_TO_LAYER != 0

def LayerMaskDataInner.layer_mask_disabled (m : LayerMaskDataInner) : Bool :=
  m.flags &&& LAYER_MASK_DISABLED != 0

def LayerMaskDataInner.invert_layer_mask_when_blending (m : LayerMaskDataInner) : Bool :=
  m.flags &&& INVERT_LAYER_MASK_WHEN_BLENDING != 0

def LayerMaskDataInner.user_mask_came_from_rendering_other_data (m : LayerMaskDataInner) : Bool :=
  m.flags &&& USER_MASK_CAME_FROM_RENDERING_OTHER_DATA != 0

def LayerMaskDataInner.user_and_or_vector_masks_have_parameters_applied (m : LayerMaskDataInner) : Bool :=
  m.flags &&& MASKS_HAVE_PARAMETERS_APPLIED != 0

/-- `LayerMaskData`: the decoder's output. -/
structure LayerMaskData where
  vector_mask : Option LayerMaskDataInner
  raster_mask : Option LayerMaskDataInner
  deriving DecidableEq, Repr

/-- u32 wrapping subtraction `a - b` (release-mode Rust), defined for
`b ≤ 2 ^ 32 + a`; every use in the decoder has `b ≤ 55`. -/
def subU32 (a b : Nat) : Nat := (2 ^ 32 + a - b) % 2 ^ 32

/-- Source lines 58-81: decode the first mask record — rectangle
(`top`,`left`,`bottom`,`right`), then `default_color`, then `flags`;
`density`/`feather` are initialised to `255`/`0.0`. -/
def readFirstMask (c : PsdCursor) :
    Except PsdLayerError (LayerMaskDataInner × PsdCursor) :=
  match c.readI32 with
  | .error e => .error e
  | .ok (top, c) =>
  match c.readI32 with
  | .error e => .error e
  | .ok (left, c) =>
  match c.readI32 with
  | .error e => .error e
  | .ok (bottom, c) =>
  match c.readI32 with
  | .error e => .error e
  | .ok (right, c) =>
  match c.readU8 with
  | .error e => .error e
  | .ok (default_color, c) =>
  match c.readU8 with
  | .error e => .error e
  | .ok (flags, c) =>
    .ok ({ top := top, left := left, bottom := bottom, right := right,
           default_color := default_color, flags := flags,
           density := 255, feather := 0 }, c)

/-- Source lines 83-107: decode the second mask record — `flags`, then
`default_color`, then the rectangle (field order reversed w.r.t. the first
record); `density`/`feather` initialised to `255`/`0.0`. -/
def readSecondMask (c : PsdCursor) :
    Except PsdLayerError (LayerMaskDataInner × PsdCursor) :=
  match c.readU8 with
  | .error e => .error e
  | .ok (flags, c) =>
  match c.readU8 with
  | .error e => .error e
  | .ok (default_color, c) =>
  match c.readI32 with
  | .error e => .error e
  | .ok (top, c) =>
  match c.readI32 with
  | .error e => .error e
  | .ok (left, c) =>
  match c.readI32 with
  | .error e => .error e
  | .ok (bottom, c) =>
  match c.readI32 with
  | .error e => .error e
  | .ok (right, c) =>
    .ok ({ top := top, left := left, bottom := bottom, right := right,
           default_color := default_color, flags := flags,
           density := 255, feather := 0 }, c)

/-- One conditional 1-byte parameter read (source pattern
`if parameter_flags & BIT != 0 { v = cursor.read_u8(); read_count += 1; }`,
with the local's initial value `0` kept otherwise). -/
def stepParamByte (cond : Bool) (c : PsdCursor) (read_count : Nat) :
    Except PsdLayerError (Nat × PsdCursor × Nat) :=
  if cond then
    match c.readU8 with
    | .error e => .error e
    | .ok (v, c) => .ok (v, c, read_count + 1)
  else
    .ok (0, c, read_count)

/-- One conditional 8-byte parameter read (source pattern
`if parameter_flags & BIT != 0 { v = cursor.read_f64(); read_count += 8; }`,
with the local's initial value `0.0` kept otherwise). -/
def stepParamF64 (cond : Bool) (c : PsdCursor) (read_count : Nat) :
    Except PsdLayerError (Nat × PsdCursor × Nat) :=
  if cond then
    match c.readF64 with
    | .error e => .error e
    | .ok (v, c) => .ok (v, c, read_count + 8)
  else
    .ok (0, c, read_count)

/-- Source lines 110-137: the parameter block. The four locals
`raster_mask_density`, `raster_mask_feather`, `vector_mask_density`,
`vector_mask_feather` start at `0`/`0.0`; when the first record's flags have
`MASKS_HAVE_PARAMETERS_APPLIED` set, a `parameter_flags` byte is read and each
value is read in order when its bit is set. Returns the four values, the
cursor, and the updated `read_count`. -/
def readParamBlock (flags : Nat) (c : PsdCursor) (read_count : Nat) :
    Except PsdLayerError (Nat × Nat × Nat × Nat × PsdCursor × Nat) :=
  if flags &&& MASKS_HAVE_PARAMETERS_APPLIED != 0 then
    match c.readU8 with
    | .error e => .error e
    | .ok (parameter_flags, c) =>
    let read_count := read_count + 1
    match stepParamByte (parameter_flags &&& USER_MASK_DENSITY != 0) c read_count with
    | .error e => .error e
    | .ok (raster_mask_density, c, read_count) =>
    match stepParamF64 (parameter_flags &&& USER_MASK_FEATHER != 0) c read_count with
    | .error e => .error e
    | .ok (raster_mask_feather, c, read_count) =>
    match stepParamByte (parameter_flags &&& VECTOR_MASK_DENSITY != 0) c read_count with
    | .error e => .error e
    | .ok (vector_mask_density, c, read_count) =>
    match stepParamF64 (parameter_flags &&& VECTOR_MASK_FEATHER != 0) c read_count with
    | .error e => .error e
    | .ok (vector_mask_feather, c, read_count) =>
      .ok (raster_mask_density, raster_mask_feather,
           vector_mask_density, vector_mask_feather, c, read_count)
  else
    .ok (0, 0, 0, 0, c, read_count)

/-- Source lines 47-171: `read_layer_mask_data`. Reads the u32 length prefix;
if it is `< 16` skips that many bytes and returns an empty result; otherwise
decodes the first record (18 bytes), a second record when
`layer_mask_data_len - read_count >= 18` (u32 wrapping subtraction), the
parameter block when the first record's bit 4 is set, skips
`layer_mask_data_len - read_count` bytes (wrapping), classifies the records,
and back-patches `density`/`feather` unconditionally from the parameter
locals. -/
def read_layer_mask_data (cursor : PsdCursor) :
    Except PsdLayerError (LayerMaskData × PsdCursor) :=
  match cursor.readU32 with
  | .error e => .error e
  | .ok (layer_mask_data_len, cursor) =>
  if layer_mask_data_len < 16 then
    match cursor.read layer_mask_data_len with
    | .error e => .error e
    | .ok cursor => .ok ({ vector_mask := none, raster_mask := none }, cursor)
  else
  match readFirstMask cursor with
  | .error e => .error e
  | .ok (first_mask, cursor) =>
  let read_count := 0 + 4 * 4 + 1 + 1
  match (if 18 ≤ subU32 layer_mask_data_len read_count then
           match readSecondMask cursor with
           | .error e => .error e
           | .ok (m, cursor) => .ok (some m, cursor, read_count + 18)
         else
           .ok (none, cursor, read_count) :
         Except PsdLayerError (Option LayerMaskDataInner × PsdCursor × Nat)) with
  | .error e => .error e
  | .ok (second_mask, cursor, read_count) =>
  match readParamBlock first_mask.flags cursor read_count with
  | .error e => .error e
  | .ok (raster_mask_density, raster_mask_feather,
         vector_mask_density, vector_mask_feather, cursor, read_count) =>
  match cursor.read (subU32 layer_mask_data_len read_count) with
  | .error e => .error e
  | .ok cursor =>
  let layer_mask_data : LayerMaskData :=
    match second_mask with
    | some second_mask =>
      { vector_mask := some first_mask, raster_mask := some second_mask }
    | none =>
      if first_mask.user_mask_came_from_rendering_other_data then
        { vector_mask := some first_mask, raster_mask := none }
      else
        { vector_mask := none, raster_mask := some first_mask }
  let layer_mask_data :=
    { layer_mask_data with
      raster_mask := layer_mask_data.raster_mask.map
        (fun m => { m with density := raster_mask_density,
                           feather := raster_mask_feather }),
      vector_mask := layer_mask_data.vector_mask.map
        (fun m => { m with density := vector_mask_density,
                           feather := vector_mask_feather }) }
  .ok (layer_mask_data, cursor)

/-! ### Closed-form description of a successful decode

These definitions are not part of the embedding of the source; they are the
closed forms that the theorems below prove the decoder to satisfy. -/

/-- The first mask record as laid out at position `p`: rectangle (4 × i32,
big-endian), then `default_color`, then `flags` — 18 bytes. -/
def firstAt (d : Nat → Nat) (p : Nat) : LayerMaskDataInner :=
  { top := toI32 (beAt d p 4), left := toI32 (beAt d (p + 4) 4),
    bottom := toI32 (beAt d (p + 8) 4), right := toI32 (beAt d (p + 12) 4),
    default_color := byteAt d (p + 16), flags := byteAt d (p + 17),
    density := 255, feather := 0 }

/-- The second mask record as laid out at position `p`: `flags`, then
`default_color`, then the rectangle — the reversed field order, 18 bytes. -/
def secondAt (d : Nat → Nat) (p : Nat) : LayerMaskDataInner :=
  { top := toI32 (beAt d (p + 2) 4), left := toI32 (beAt d (p + 6) 4),
    bottom := toI32 (beAt d (p + 10) 4), right := toI32 (beAt d (p + 14) 4),
    default_color := byteAt d (p + 1), flags := byteAt d p,
    density := 255, feather := 0 }

/-- The four parameter values and the byte count of a parameter block. -/
structure ParamsSpec where
  rd : Nat
  rf : Nat
  vd : Nat
  vf : Nat
  nbytes : Nat
  deriving DecidableEq, Repr

/-- Closed form of the parameter block read at position `p` when the first
record's flags are `flags`: nothing when bit 4 is clear; otherwise one
`parameter_flags` byte followed, in order, by the bit-gated density (1 byte)
and feather (8 bytes) values, ungated values staying `0`. -/
def paramsAt (flags : Nat) (d : Nat → Nat) (p : Nat) : ParamsSpec :=
  if flags &&& MASKS_HAVE_PARAMETERS_APPLIED != 0 then
    let pb := byteAt d p
    let w1 : Nat := if pb &&& USER_MASK_DENSITY != 0 then 1 else 0
    let w2 : Nat := if pb &&& USER_MASK_FEATHER != 0 then 8 else 0
    let w3 : Nat := if pb &&& VECTOR_MASK_DENSITY != 0 then 1 else 0
    let w4 : Nat := if pb &&& VECTOR_MASK_FEATHER != 0 then 8 else 0
    { rd := if pb &&& USER_MASK_DENSITY != 0 then byteAt d (p + 1) else 0,
      rf := if pb &&& USER_MASK_FEATHER != 0 then beAt d (p + 1 + w1) 8 else 0,
      vd := if pb &&& VECTOR_MASK_DENSITY != 0 then byteAt d (p + 1 + w1 + w2) else 0,
      vf := if pb &&& VECTOR_MASK_FEATHER != 0 then beAt d (p + 1 + w1 + w2 + w3) 8 else 0,
      nbytes := 1 + w1 + w2 + w3 + w4 }
  else
    { rd := 0, rf := 0, vd := 0, vf := 0, nbytes := 0 }

/-- The declared section length: the big-endian u32 at position `p`. -/
def declaredLenAt (d : Nat → Nat) (p : Nat) : Nat := beAt d p 4

/-- Position of the parameter block for a section starting at `p`. -/
def paramPosAt (d : Nat → Nat) (p : Nat) : Nat :=
  if 18 ≤ subU32 (declaredLenAt d p) 18 then p + 40 else p + 22

/-- The parameter block of the section starting at `p` (first record's flags
byte is at `p + 21`). -/
def paramsSpecAt (d : Nat → Nat) (p : Nat) : ParamsSpec :=
  paramsAt (byteAt d (p + 21)) d (paramPosAt d p)

/-- Total `read_count` of a section starting at `p` before the final skip. -/
def rcTotalAt (d : Nat → Nat) (p : Nat) : Nat :=
  (if 18 ≤ subU32 (declaredLenAt d p) 18 then 36 else 18) + (paramsSpecAt d p).nbytes

/-- Final cursor position after a successful decode of a section starting at
`p` with `declared_len ≥ 16` (including the final wrapping skip). -/
def endPosAt (d : Nat → Nat) (p : Nat) : Nat :=
  p + 4 + rcTotalAt d p + subU32 (declaredLenAt d p) (rcTotalAt d p)

/-- The decoded result of a section starting at `p` with `declared_len ≥ 16`:
classification and the unconditional density/feather back-patch. -/
def resultAt (d : Nat → Nat) (p : Nat) : LayerMaskData :=
  let ps := paramsSpecAt d p
  let first := firstAt d (p + 4)
  if 18 ≤ subU32 (declaredLenAt d p) 18 then
    { vector_mask := some { first with density := ps.vd, feather := ps.vf },
      raster_mask := some { secondAt d (p + 22) with density := ps.rd, feather := ps.rf } }
  else if first.user_mask_came_from_rendering_other_data then
    { vector_mask := some { first with density := ps.vd, feather := ps.vf },
      raster_mask := none }
  else
    { vector_mask := none,
      raster_mask := some { first with density := ps.rd, feather := ps.rf } }

/-! ### Characterization lemmas -/

theorem readN_eq (c : PsdCursor) (n : Nat) (h : c.pos + n ≤ c.len) :
    c.readN n = .ok (beAt c.data c.pos n, { c with pos := c.pos + n }) := by
  simp [PsdCursor.readN, h]

theorem readN_ok_inv {c : PsdCursor} {n : Nat} {x : Nat × PsdCursor}
    (h : c.readN n = .ok x) :
    c.pos + n ≤ c.len ∧ x = (beAt c.data c.pos n, { c with pos := c.pos + n }) := by
  by_cases hb : c.pos + n ≤ c.len
  · rw [readN_eq c n hb] at h
    injection h with h'
    exact ⟨hb, h'.symm⟩
  · simp [PsdCursor.readN, hb] at h

theorem read_eq (c : PsdCursor) (n : Nat) (h : c.pos + n ≤ c.len) :
    c.read n = .ok { c with pos := c.pos + n } := by
  simp [PsdCursor.read, h]

theorem read_ok_inv {c : PsdCursor} {n : Nat} {c' : PsdCursor}
    (h : c.read n = .ok c') :
    c.pos + n ≤ c.len ∧ c' = { c with pos := c.pos + n } := by
  by_cases hb : c.pos + n ≤ c.len
  · rw [read_eq c n hb] at h
    injection h with h'
    exact ⟨hb, h'.symm⟩
  · simp [PsdCursor.read, hb] at h

theorem beAt_one (d : Nat → Nat) (p : Nat) : beAt d p 1 = byteAt d p := by
  simp [beAt]

theorem readFirstMask_eq (c : PsdCursor) (h : c.pos + 18 ≤ c.len) :
    readFirstMask c = .ok (firstAt c.data c.pos, { c with pos := c.pos + 18 }) := by
  obtain ⟨d, L, p⟩ := c
  simp only at h
  simp [readFirstMask, PsdCursor.readI32, PsdCursor.readU8, PsdCursor.readN, firstAt,
    Nat.add_assoc, beAt_one, show p + 4 ≤ L from by omega, show p + 8 ≤ L from by omega,
    show p + 12 ≤ L from by omega, show p + 16 ≤ L from by omega,
    show p + 17 ≤ L from by omega, show p + 18 ≤ L from by omega]

theorem readSecondMask_eq (c : PsdCursor) (h : c.pos + 18 ≤ c.len) :
    readSecondMask c = .ok (secondAt c.data c.pos, { c with pos := c.pos + 18 }) := by
  obtain ⟨d, L, p⟩ := c
  simp only at h
  simp [readSecondMask, PsdCursor.readI32, PsdCursor.readU8, PsdCursor.readN, secondAt,
    Nat.add_assoc, beAt_one, show p + 1 ≤ L from by omega, show p + 2 ≤ L from by omega,
    show p + 6 ≤ L from by omega, show p + 10 ≤ L from by omega,
    show p + 14 ≤ L from by omega, show p + 18 ≤ L from by omega]

theorem readI32_eq (c : PsdCursor) (h : c.pos + 4 ≤ c.len) :
    c.readI32 = .ok (toI32 (beAt c.data c.pos 4), { c with pos := c.pos + 4 }) := by
  simp [PsdCursor.readI32, readN_eq c 4 h]

theorem readI32_ok_inv {c : PsdCursor} {x : Int × PsdCursor}
    (h : c.readI32 = .ok x) :
    c.pos + 4 ≤ c.len ∧ x = (toI32 (beAt c.data c.pos 4), { c with pos := c.pos + 4 }) := by
  unfold PsdCursor.readI32 at h
  split at h
  · exact Except.noConfusion h
  next v c' heq =>
    obtain ⟨hb, hx⟩ := readN_ok_inv heq
    injection hx with h1 h2
    subst h1 h2
    injection h with h'
    exact ⟨hb, h'.symm⟩

theorem readFirstMask_ok_inv {c : PsdCursor} {x : LayerMaskDataInner × PsdCursor}
    (h : readFirstMask c = .ok x) :
    c.pos + 18 ≤ c.len ∧ x = (firstAt c.data c.pos, { c with pos := c.pos + 18 }) := by
  unfold readFirstMask at h
  split at h
  · exact Except.noConfusion h
  next v1 c1 heq1 =>
  split at h
  · exact Except.noConfusion h
  next v2 c2 heq2 =>
  split at h
  · exact Except.noConfusion h
  next v3 c3 heq3 =>
  split at h
  · exact Except.noConfusion h
  next v4 c4 heq4 =>
  split at h
  · exact Except.noConfusion h
  next v5 c5 heq5 =>
  split at h
  · exact Except.noConfusion h
  next v6 c6 heq6 =>
  obtain ⟨hb1, hx1⟩ := readI32_ok_inv heq1
  injection hx1 with e1 e2
  subst e1 e2
  obtain ⟨hb2, hx2⟩ := readI32_ok_inv heq2
  injection hx2 with e1 e2
  subst e1 e2
  obtain ⟨hb3, hx3⟩ := readI32_ok_inv heq3
  injection hx3 with e1 e2
  subst e1 e2
  obtain ⟨hb4, hx4⟩ := readI32_ok_inv heq4
  injection hx4 with e1 e2
  subst e1 e2
  obtain ⟨hb5, hx5⟩ := readN_ok_inv heq5
  injection hx5 with e1 e2
  subst e1 e2
  obtain ⟨hb6, hx6⟩ := readN_ok_inv heq6
  injection hx6 with e1 e2
  subst e1 e2
  dsimp only at hb6 h
  injection h with h'
  rw [← h']
  refine ⟨by omega, ?_⟩
  simp [firstAt, beAt_one, Nat.add_assoc]

theorem readSecondMask_ok_inv {c : PsdCursor} {x : LayerMaskDataInner × PsdCursor}
    (h : readSecondMask c = .ok x) :
    c.pos + 18 ≤ c.len ∧ x = (secondAt c.data c.pos, { c with pos := c.pos + 18 }) := by
  unfold readSecondMask at h
  split at h
  · exact Except.noConfusion h
  next v1 c1 heq1 =>
  split at h
  · exact Except.noConfusion h
  next v2 c2 heq2 =>
  split at h
  · exact Except.noConfusion h
  next v3 c3 heq3 =>
  split at h
  · exact Except.noConfusion h
  next v4 c4 heq4 =>
  split at h
  · exact Except.noConfusion h
  next v5 c5 heq5 =>
  split at h
  · exact Except.noConfusion h
  next v6 c6 heq6 =>
  obtain ⟨hb1, hx1⟩ := readN_ok_inv heq1
  injection hx1 with e1 e2
  subst e1 e2
  obtain ⟨hb2, hx2⟩ := readN_ok_inv heq2
  injection hx2 with e1 e2
  subst e1 e2
  obtain ⟨hb3, hx3⟩ := readI32_ok_inv heq3
  injection hx3 with e1 e2
  subst e1 e2
  obtain ⟨hb4, hx4⟩ := readI32_ok_inv heq4
  injection hx4 with e1 e2
  subst e1 e2
  obtain ⟨hb5, hx5⟩ := readI32_ok_inv heq5
  injection hx5 with e1 e2
  subst e1 e2
  obtain ⟨hb6, hx6⟩ := readI32_ok_inv heq6
  injection hx6 with e1 e2
  subst e1 e2
  dsimp only at hb6 h
  injection h with h'
  rw [← h']
  refine ⟨by omega, ?_⟩
  simp [secondAt, beAt_one, Nat.add_assoc]

theorem stepParamByte_ok_inv {cond : Bool} {c : PsdCursor} {rc : Nat}
    {out : Nat × PsdCursor × Nat}
    (h : stepParamByte cond c rc = .ok out) :
    (cond = true → c.pos + 1 ≤ c.len ∧
      out = (byteAt c.data c.pos, { c with pos := c.pos + 1 }, rc + 1)) ∧
    (cond = false → out = (0, c, rc)) := by
  cases cond with
  | false =>
    simp only [stepParamByte, Bool.false_eq_true, if_false] at h
    injection h with h'
    exact ⟨by simp, fun _ => h'.symm⟩
  | true =>
    refine ⟨fun _ => ?_, by simp⟩
    simp only [stepParamByte, if_true] at h
    split at h
    · exact Except.noConfusion h
    next v c' heq =>
      obtain ⟨hb, hx⟩ := readN_ok_inv heq
      injection hx with e1 e2
      subst e1 e2
      injection h with h'
      exact ⟨hb, by rw [← h', beAt_one]⟩

theorem stepParamF64_ok_inv {cond : Bool} {c : PsdCursor} {rc : Nat}
    {out : Nat × PsdCursor × Nat}
    (h : stepParamF64 cond c rc = .ok out) :
    (cond = true → c.pos + 8 ≤ c.len ∧
      out = (beAt c.data c.pos 8, { c with pos := c.pos + 8 }, rc + 8)) ∧
    (cond = false → out = (0, c, rc)) := by
  cases cond with
  | false =>
    simp only [stepParamF64, Bool.false_eq_true, if_false] at h
    injection h with h'
    exact ⟨by simp, fun _ => h'.symm⟩
  | true =>
    refine ⟨fun _ => ?_, by simp⟩
    simp only [stepParamF64, if_true] at h
    split at h
    · exact Except.noConfusion h
    next v c' heq =>
      obtain ⟨hb, hx⟩ := readN_ok_inv heq
      injection hx with e1 e2
      subst e1 e2
      injection h with h'
      exact ⟨hb, h'.symm⟩

theorem readParamBlock_ok_inv {flags : Nat} {c : PsdCursor} {rc : Nat}
    {out : Nat × Nat × Nat × Nat × PsdCursor × Nat}
    (h : readParamBlock flags c rc = .ok out) :
    out = ((paramsAt flags c.data c.pos).rd, (paramsAt flags c.data c.pos).rf,
           (paramsAt flags c.data c.pos).vd, (paramsAt flags c.data c.pos).vf,
           { c with pos := c.pos + (paramsAt flags c.data c.pos).nbytes },
           rc + (paramsAt flags c.data c.pos).nbytes) := by
  cases hm : (flags &&& MASKS_HAVE_PARAMETERS_APPLIED != 0) with
  | false =>
    simp only [readParamBlock, hm, Bool.false_eq_true, if_false] at h
    injection h with h'
    rw [← h']
    simp [paramsAt, hm]
  | true =>
    simp only [readParamBlock, hm, if_true] at h
    split at h
    · exact Except.noConfusion h
    next pb c1 heq0 =>
    split at h
    · exact Except.noConfusion h
    next v1 c2 rc2 heq1 =>
    split at h
    · exact Except.noConfusion h
    next v2 c3 rc3 heq2 =>
    split at h
    · exact Except.noConfusion h
    next v3 c4 rc4 heq3 =>
    split at h
    · exact Except.noConfusion h
    next v4 c5 rc5 heq4 =>
    obtain ⟨hb0, hx0⟩ := readN_ok_inv heq0
    injection hx0 with e1 e2
    rw [beAt_one] at e1
    subst e1 e2
    rcases stepParamByte_ok_inv heq1 with ⟨ht1, hf1⟩
    rcases stepParamF64_ok_inv heq2 with ⟨ht2, hf2⟩
    rcases stepParamByte_ok_inv heq3 with ⟨ht3, hf3⟩
    rcases stepParamF64_ok_inv heq4 with ⟨ht4, hf4⟩
    injection h with h'
    rw [← h']
    cases hc1 : (byteAt c.data c.pos &&& USER_MASK_DENSITY != 0) <;>
    cases hc2 : (byteAt c.data c.pos &&& USER_MASK_FEATHER != 0) <;>
    cases hc3 : (byteAt c.data c.pos &&& VECTOR_MASK_DENSITY != 0) <;>
    cases hc4 : (byteAt c.data c.pos &&& VECTOR_MASK_FEATHER != 0) <;>
    simp_all [paramsAt, hm, Nat.add_assoc]

theorem read_ok_low {c : PsdCursor} {r : LayerMaskData} {c' : PsdCursor}
    (hL : declaredLenAt c.data c.pos < 16)
    (h : read_layer_mask_data c = .ok (r, c')) :
    r = { vector_mask := none, raster_mask := none } ∧
    c'.data = c.data ∧ c'.len = c.len ∧
    c'.pos = c.pos + 4 + declaredLenAt c.data c.pos ∧
    c.pos + 4 + declaredLenAt c.data c.pos ≤ c.len := by
  unfold read_layer_mask_data at h
  split at h
  · exact Except.noConfusion h
  next L c1 heq0 =>
  obtain ⟨hb0, hx0⟩ := readN_ok_inv heq0
  injection hx0 with e1 e2
  subst e1 e2
  rw [if_pos (show beAt c.data c.pos 4 < 16 from hL)] at h
  split at h
  · exact Except.noConfusion h
  next c2 heq1 =>
  obtain ⟨hb1, hx1⟩ := read_ok_inv heq1
  subst hx1
  injection h with h'
  injection h' with ha hb
  subst ha hb
  exact ⟨rfl, rfl, rfl, rfl, hb1⟩

theorem read_ok_main {c : PsdCursor} {r : LayerMaskData} {c' : PsdCursor}
    (hL : 16 ≤ declaredLenAt c.data c.pos)
    (h : read_layer_mask_data c = .ok (r, c')) :
    r = resultAt c.data c.pos ∧
    c'.data = c.data ∧ c'.len = c.len ∧
    c'.pos = endPosAt c.data c.pos ∧
    endPosAt c.data c.pos ≤ c.len := by
  have hL' : 16 ≤ beAt c.data c.pos 4 := hL
  unfold read_layer_mask_data at h
  split at h
  · exact Except.noConfusion h
  next L c1 heq0 =>
  obtain ⟨hb0, hx0⟩ := readN_ok_inv heq0
  injection hx0 with e1 e2
  subst e1 e2
  rw [if_neg (show ¬ beAt c.data c.pos 4 < 16 from by omega)] at h
  split at h
  · exact Except.noConfusion h
  next fm c2 heq1 =>
  obtain ⟨hb1, hx1⟩ := readFirstMask_ok_inv heq1
  injection hx1 with e1 e2
  subst e1 e2
  simp only [Nat.reduceMul, Nat.reduceAdd] at h
  by_cases hs : 18 ≤ subU32 (beAt c.data c.pos 4) 18
  · rw [if_pos hs] at h
    split at h
    · exact Except.noConfusion h
    next second_mask sm c3 heqS =>
    split at heqS
    · exact Except.noConfusion heqS
    next m cm heqS2 =>
    injection heqS with f0
    injection f0 with f1 f2
    injection f2 with f3 f4
    subst f1 f3 f4
    obtain ⟨hb2, hx2⟩ := readSecondMask_ok_inv heqS2
    injection hx2 with e1 e2
    subst e1 e2
    split at h
    · exact Except.noConfusion h
    next v1 v2 v3 v4 c4 rc4 heqP =>
    have hP := readParamBlock_ok_inv heqP
    simp only [Prod.mk.injEq] at hP
    obtain ⟨e1, e2, e3, e4, e5, e6⟩ := hP
    subst e1 e2 e3 e4 e5 e6
    split at h
    · exact Except.noConfusion h
    next c5 heqR =>
    obtain ⟨hbR, hxR⟩ := read_ok_inv heqR
    subst hxR
    injection h with h'
    injection h' with ha hb
    subst ha hb
    refine ⟨?_, rfl, rfl, ?_, ?_⟩
    · simp [resultAt, paramsSpecAt, paramPosAt, rcTotalAt, declaredLenAt, firstAt, secondAt,
        hs, Nat.add_assoc]
    · simp only [endPosAt, rcTotalAt, paramsSpecAt, paramPosAt, declaredLenAt, firstAt,
        hs, if_pos, if_true]
      simp only [Nat.add_assoc, Nat.reduceAdd]
      omega
    · simp only [endPosAt, rcTotalAt, paramsSpecAt, paramPosAt, declaredLenAt, firstAt,
        hs, if_pos, if_true] at hbR ⊢
      simp only [Nat.add_assoc, Nat.reduceAdd] at hbR ⊢
      omega
  · rw [if_neg hs] at h
    split at h
    · exact Except.noConfusion h
    next second_mask sm c3 heqS =>
    injection heqS with f0
    injection f0 with f1 f2
    injection f2 with f3 f4
    subst f1 f3 f4
    split at h
    · exact Except.noConfusion h
    next v1 v2 v3 v4 c4 rc4 heqP =>
    have hP := readParamBlock_ok_inv heqP
    simp only [Prod.mk.injEq] at hP
    obtain ⟨e1, e2, e3, e4, e5, e6⟩ := hP
    subst e1 e2 e3 e4 e5 e6
    split at h
    · exact Except.noConfusion h
    next c5 heqR =>
    obtain ⟨hbR, hxR⟩ := read_ok_inv heqR
    subst hxR
    injection h with h'
    injection h' with ha hb
    subst ha hb
    refine ⟨?_, rfl, rfl, ?_, ?_⟩
    · simp [resultAt, paramsSpecAt, paramPosAt, rcTotalAt, declaredLenAt, firstAt, secondAt,
        hs, Nat.add_assoc, apply_ite]
      split <;> simp_all
    · simp only [endPosAt, rcTotalAt, paramsSpecAt, paramPosAt, declaredLenAt, firstAt,
        hs, if_neg, if_false]
      simp only [Nat.add_assoc, Nat.reduceAdd]
      omega
    · simp only [endPosAt, rcTotalAt, paramsSpecAt, paramPosAt, declaredLenAt, firstAt,
        hs, if_neg, if_false] at hbR ⊢
      simp only [Nat.add_assoc, Nat.reduceAdd] at hbR ⊢
      omega

end Psd

namespace Psd

/-! ### Arithmetic helpers -/

theorem subU32_of_le {a b : Nat} (hb : b ≤ a) (ha : a < 2 ^ 32) : subU32 a b = a - b := by
  unfold subU32
  rw [show 2 ^ 32 + a - b = (a - b) + 2 ^ 32 by omega, Nat.add_mod_right]
  exact Nat.mod_eq_of_lt (by omega)

theorem subU32_of_lt {a b : Nat} (hab : a < b) (hb : b ≤ 2 ^ 32) :
    subU32 a b = 2 ^ 32 + a - b := by
  unfold subU32
  exact Nat.mod_eq_of_lt (by omega)

theorem byteAt_lt (d : Nat → Nat) (i : Nat) : byteAt d i < 256 := by
  exact Nat.mod_lt _ (by omega)

theorem beAt_lt (d : Nat → Nat) (p n : Nat) : beAt d p n < 2 ^ (8 * n) := by
  induction n with
  | zero => simp [beAt]
  | succ k ih =>
    have hb := byteAt_lt d (p + k)
    have : beAt d p (k + 1) = beAt d p k * 256 + byteAt d (p + k) := rfl
    rw [this]
    have h2 : 2 ^ (8 * (k + 1)) = 2 ^ (8 * k) * 256 := by
      rw [Nat.mul_add, Nat.pow_add]
    omega

theorem beAt_lt_four (d : Nat → Nat) (p : Nat) : beAt d p 4 < 2 ^ 32 := by
  have h := beAt_lt d p 4
  norm_num at h ⊢
  omega

theorem paramsAt_nbytes_le (flags : Nat) (d : Nat → Nat) (p : Nat) :
    (paramsAt flags d p).nbytes ≤ 19 := by
  unfold paramsAt
  split_ifs <;> simp <;> split_ifs <;> norm_num

theorem rcTotalAt_ge (d : Nat → Nat) (p : Nat) : 18 ≤ rcTotalAt d p := by
  unfold rcTotalAt
  split_ifs <;> omega

theorem rcTotalAt_le (d : Nat → Nat) (p : Nat) : rcTotalAt d p ≤ 55 := by
  have := paramsAt_nbytes_le (byteAt d (p + 21)) d (paramPosAt d p)
  unfold rcTotalAt paramsSpecAt
  split_ifs <;> omega

end Psd

namespace Psd

/-! ### Concrete test buffers -/

/-- A cursor over an explicit list of bytes, positioned at the start. -/
def listCursor (bs : List Nat) : PsdCursor :=
  ⟨fun i => bs.getD i 0, bs.length, 0⟩

/-- Section with declared length 20 and all content bytes zero. -/
def buf20 : PsdCursor := listCursor ([0, 0, 0, 20] ++ List.replicate 20 0)

/-- Section with declared length 38 (two records + 2 bytes slack), all zero. -/
def buf38 : PsdCursor := listCursor ([0, 0, 0, 38] ++ List.replicate 38 0)

/-- Result of decoding `buf20` and of decoding `buf38`. -/
def r20 : LayerMaskData := ⟨none, some ⟨0, 0, 0, 0, 0, 0, 0, 0⟩⟩

def r38 : LayerMaskData := ⟨some ⟨0, 0, 0, 0, 0, 0, 0, 0⟩, some ⟨0, 0, 0, 0, 0, 0, 0, 0⟩⟩

/-- Section with declared length 4, skipped entirely. -/
def buf4 : PsdCursor := listCursor [0, 0, 0, 4, 9, 9, 9, 9]

/-- Section with declared length 16 over a buffer of `2 ^ 32 + 20` bytes, all
zero except the length prefix: the wrapping subtraction makes the decode
succeed after skipping nearly 2^32 bytes. -/
def big16 : PsdCursor := ⟨fun i => if i = 3 then 16 else 0, 2 ^ 32 + 20, 0⟩

/-- Same with declared length 17 over `2 ^ 32 + 21` bytes. -/
def big17 : PsdCursor := ⟨fun i => if i = 3 then 17 else 0, 2 ^ 32 + 21, 0⟩

/-- C1: the spec claims that with no parameter block (first record's flag
bit 4 clear) every returned record keeps `density = 255`. The code constructs
the records with `density: 255` but then unconditionally back-patches
`density`/`feather` from locals initialised to `0`, so the returned
`raster_mask` of the spec's own `declared_len = 20`, flags = 0 example has
`density = 0`, not 255 (`feather = 0.0` does hold). -/
theorem C1_density_default_code_bug :
    (read_layer_mask_data buf20).toOption.map
        (fun x => (x.1.vector_mask, x.1.raster_mask.map fun m => (m.density, m.feather)))
      = some (none, some (0, 0)) ∧ (0 : Nat) ≠ 255 :=
  ⟨rfl, by decide⟩

/-- C9: a section whose declared length is `< 16` is skipped exactly
(`declared_len` bytes beyond the 4-byte prefix) and yields a result with both
descriptors absent. -/
theorem C9_short_section (c : PsdCursor) (r : LayerMaskData) (c' : PsdCursor)
    (hL : declaredLenAt c.data c.pos < 16)
    (h : read_layer_mask_data c = .ok (r, c')) :
    r = { vector_mask := none, raster_mask := none } ∧
    c'.data = c.data ∧ c'.len = c.len ∧
    c'.pos = c.pos + 4 + declaredLenAt c.data c.pos := by
  obtain ⟨h1, h2, h3, h4, _⟩ := read_ok_low hL h
  exact ⟨h1, h2, h3, h4⟩

theorem C9_short_section_witness :
    declaredLenAt buf4.data buf4.pos < 16 ∧
    ({ vector_mask := none, raster_mask := none } : LayerMaskData) =
      { vector_mask := none, raster_mask := none } ∧
    (⟨buf4.data, 8, 8⟩ : PsdCursor).pos = buf4.pos + 4 + declaredLenAt buf4.data buf4.pos :=
  ⟨by decide,
   (C9_short_section buf4 ⟨none, none⟩ ⟨buf4.data, 8, 8⟩ (by decide) rfl).1,
   (C9_short_section buf4 ⟨none, none⟩ ⟨buf4.data, 8, 8⟩ (by decide) rfl).2.2.2⟩

/-- C10 counterexample: `height` is the i32 subtraction `bottom - top`, which
wraps: for `top = -1`, `bottom = 2^31 - 1` the exact difference `2^31` does
not fit in i32 and `height` returns `-2^31` instead. -/
theorem C10_height_overflow_counterexample :
    ({ top := -1, left := 0, bottom := 2 ^ 31 - 1, right := 0, default_color := 0,
       flags := 0, density := 255, feather := 0 } : LayerMaskDataInner).height ≠
      (2 ^ 31 - 1 : Int) - (-1) ∧
    ({ top := -1, left := 0, bottom := 2 ^ 31 - 1, right := 0, default_color := 0,
       flags := 0, density := 255, feather := 0 } : LayerMaskDataInner).height = -(2 ^ 31) := by
  constructor
  · decide
  · decide

/-- C10 amended: `height()` equals `bottom - top` exactly whenever that
difference fits in the signed 32-bit range (in particular it is negative
whenever `bottom < top` within range); outside that range it wraps. -/
theorem C10_height_amended (m : LayerMaskDataInner)
    (hlo : -(2 ^ 31) ≤ m.bottom - m.top) (hhi : m.bottom - m.top < 2 ^ 31) :
    m.height = m.bottom - m.top := by
  unfold LayerMaskDataInner.height wrapI32
  rw [Int.emod_eq_of_lt (by omega) (by omega)]
  omega

theorem C10_height_amended_witness :
    (-(2 ^ 31) : Int) ≤
        ({ top := 5, left := 0, bottom := 2, right := 0, default_color := 0, flags := 0,
           density := 255, feather := 0 } : LayerMaskDataInner).bottom -
          ({ top := 5, left := 0, bottom := 2, right := 0, default_color := 0, flags := 0,
             density := 255, feather := 0 } : LayerMaskDataInner).top ∧
    ({ top := 5, left := 0, bottom := 2, right := 0, default_color := 0, flags := 0,
       density := 255, feather := 0 } : LayerMaskDataInner).height = 2 - 5 :=
  ⟨by decide,
   C10_height_amended
     { top := 5, left := 0, bottom := 2, right := 0, default_color := 0, flags := 0,
       density := 255, feather := 0 } (by decide) (by decide)⟩

end Psd

namespace Psd

/-- C8 counterexample: with declared length 17 (a value the `< 16` guard
admits) the final skip's u32 subtraction underflows, and a successful decode
consumes `4 + 17 + 2^32` bytes instead of the claimed `4 + 17`. -/
theorem C8_consumption_counterexample :
    (read_layer_mask_data big17).toOption.map (fun x => x.2.pos) = some (2 ^ 32 + 21) ∧
    (2 ^ 32 + 21 : Nat) ≠ big17.pos + 4 + 17 :=
  ⟨rfl, by decide⟩

/-- C8 amended: a successful call leaves `data`/`len` untouched and advances
the cursor by exactly `4 + declared_len` bytes, except when the total
`read_count` before the final skip exceeds `declared_len` (underflow of the
wrapping subtraction), in which case it advances `4 + declared_len + 2^32`
bytes. -/
theorem C8_consumption_amended (c : PsdCursor) (r : LayerMaskData) (c' : PsdCursor)
    (h : read_layer_mask_data c = .ok (r, c')) :
    c'.data = c.data ∧ c'.len = c.len ∧
    (declaredLenAt c.data c.pos < 16 →
      c'.pos = c.pos + 4 + declaredLenAt c.data c.pos) ∧
    (16 ≤ declaredLenAt c.data c.pos →
      (rcTotalAt c.data c.pos ≤ declaredLenAt c.data c.pos →
        c'.pos = c.pos + 4 + declaredLenAt c.data c.pos) ∧
      (declaredLenAt c.data c.pos < rcTotalAt c.data c.pos →
        c'.pos = c.pos + 4 + declaredLenAt c.data c.pos + 2 ^ 32)) := by
  by_cases hL : declaredLenAt c.data c.pos < 16
  · obtain ⟨-, h2, h3, h4, -⟩ := read_ok_low hL h
    exact ⟨h2, h3, fun _ => h4, fun h16 => absurd hL (by omega)⟩
  · obtain ⟨-, h2, h3, h4, -⟩ := read_ok_main (by omega) h
    have hlt := beAt_lt_four c.data c.pos
    have hrc := rcTotalAt_le c.data c.pos
    refine ⟨h2, h3, fun hl => absurd hl hL, fun h16 => ⟨fun hle => ?_, fun hgt => ?_⟩⟩
    · rw [h4]
      unfold endPosAt
      rw [subU32_of_le hle hlt]
      have := rcTotalAt_ge c.data c.pos
      unfold declaredLenAt at hle ⊢
      omega
    · rw [h4]
      unfold endPosAt
      rw [subU32_of_lt hgt (by omega)]
      unfold declaredLenAt at hgt ⊢
      omega

theorem C8_consumption_amended_witness :
    rcTotalAt buf20.data buf20.pos ≤ declaredLenAt buf20.data buf20.pos ∧
    (⟨buf20.data, 24, 24⟩ : PsdCursor).pos =
      buf20.pos + 4 + declaredLenAt buf20.data buf20.pos :=
  ⟨by decide,
   ((C8_consumption_amended buf20 r20 ⟨buf20.data, 24, 24⟩ rfl).2.2.2
     (by decide)).1 (by decide)⟩

/-- C4: the u32 subtraction `declared_len - read_count` wraps modulo `2^32`:
for declared lengths 16 and 17 the second-record check compares a near-`2^32`
value against 18, so a second record is decoded although fewer than 18
declared bytes remain; and whenever `read_count` exceeds `declared_len`, the
final padding skip is requested with a wrapped near-`2^32` byte count (so a
successful decode advances the cursor past `2^32` extra bytes). -/
theorem C4_wrapping_subtraction (c : PsdCursor) (r : LayerMaskData) (c' : PsdCursor)
    (hL : 16 ≤ declaredLenAt c.data c.pos)
    (hov : declaredLenAt c.data c.pos < rcTotalAt c.data c.pos)
    (h : read_layer_mask_data c = .ok (r, c')) :
    (declaredLenAt c.data c.pos = 16 ∨ declaredLenAt c.data c.pos = 17 →
      subU32 (declaredLenAt c.data c.pos) 18 =
        2 ^ 32 + declaredLenAt c.data c.pos - 18 ∧
      18 ≤ subU32 (declaredLenAt c.data c.pos) 18 ∧
      r.vector_mask.isSome = true ∧ r.raster_mask.isSome = true) ∧
    2 ^ 32 - 55 ≤ subU32 (declaredLenAt c.data c.pos) (rcTotalAt c.data c.pos) ∧
    c'.pos = c.pos + 4 + declaredLenAt c.data c.pos + 2 ^ 32 := by
  obtain ⟨h1, -, -, h4, -⟩ := read_ok_main hL h
  have hrc := rcTotalAt_le c.data c.pos
  have hskip := subU32_of_lt hov (by omega)
  refine ⟨fun h1617 => ?_, by omega, ?_⟩
  · have hw : subU32 (declaredLenAt c.data c.pos) 18 =
        2 ^ 32 + declaredLenAt c.data c.pos - 18 :=
      subU32_of_lt (by omega) (by norm_num)
    have hs : 18 ≤ subU32 (declaredLenAt c.data c.pos) 18 := by omega
    refine ⟨hw, hs, ?_, ?_⟩ <;> simp [h1, resultAt, hs]
  · rw [h4]
    unfold endPosAt
    omega

theorem C4_wrapping_subtraction_witness :
    16 ≤ declaredLenAt big16.data big16.pos ∧
    declaredLenAt big16.data big16.pos < rcTotalAt big16.data big16.pos ∧
    (r38.vector_mask.isSome = true ∧ r38.raster_mask.isSome = true) ∧
    (⟨big16.data, 2 ^ 32 + 20, 2 ^ 32 + 20⟩ : PsdCursor).pos =
      big16.pos + 4 + declaredLenAt big16.data big16.pos + 2 ^ 32 :=
  ⟨by decide, by decide,
   ⟨((C4_wrapping_subtraction big16 r38 ⟨big16.data, 2 ^ 32 + 20, 2 ^ 32 + 20⟩
       (by decide) (by decide) (by rfl)).1 (by decide)).2.2.1,
    ((C4_wrapping_subtraction big16 r38 ⟨big16.data, 2 ^ 32 + 20, 2 ^ 32 + 20⟩
       (by decide) (by decide) (by rfl)).1 (by decide)).2.2.2⟩,
   (C4_wrapping_subtraction big16 r38 ⟨big16.data, 2 ^ 32 + 20, 2 ^ 32 + 20⟩
       (by decide) (by decide) (by rfl)).2.2⟩

end Psd

namespace Psd

/-- C2: for a successfully decoded section with `declared_len ≥ 16`: when a
second record was decoded (the wrapping check passed), the first decoded
record is returned as `vector_mask` and the second as `raster_mask`; when
only one record was decoded, it is returned as `vector_mask` exactly when its
user-mask-came-from-rendering-other-data predicate (flags bit 3) holds and as
`raster_mask` otherwise, the other field absent. (At most two descriptors can
ever be produced: the result type has exactly the two optional fields.)
Returned records agree with the decoded ones up to the density/feather
back-patch, hence the existentials. -/
theorem C2_classification (c : PsdCursor) (r : LayerMaskData) (c' : PsdCursor)
    (hL : 16 ≤ declaredLenAt c.data c.pos)
    (h : read_layer_mask_data c = .ok (r, c')) :
    if 18 ≤ subU32 (declaredLenAt c.data c.pos) 18 then
      (∃ dv fv, r.vector_mask =
        some { firstAt c.data (c.pos + 4) with density := dv, feather := fv }) ∧
      (∃ dr fr, r.raster_mask =
        some { secondAt c.data (c.pos + 22) with density := dr, feather := fr })
    else if (firstAt c.data (c.pos + 4)).user_mask_came_from_rendering_other_data then
      (∃ dv fv, r.vector_mask =
        some { firstAt c.data (c.pos + 4) with density := dv, feather := fv }) ∧
      r.raster_mask = none
    else
      (∃ dr fr, r.raster_mask =
        some { firstAt c.data (c.pos + 4) with density := dr, feather := fr }) ∧
      r.vector_mask = none := by
  obtain ⟨h1, -, -, -, -⟩ := read_ok_main hL h
  subst h1
  by_cases hs : 18 ≤ subU32 (declaredLenAt c.data c.pos) 18
  · rw [if_pos hs]
    exact ⟨⟨(paramsSpecAt c.data c.pos).vd, (paramsSpecAt c.data c.pos).vf,
            by simp [resultAt, hs]⟩,
           ⟨(paramsSpecAt c.data c.pos).rd, (paramsSpecAt c.data c.pos).rf,
            by simp [resultAt, hs]⟩⟩
  · rw [if_neg hs]
    by_cases hu : (firstAt c.data (c.pos + 4)).user_mask_came_from_rendering_other_data
    · rw [if_pos hu]
      exact ⟨⟨(paramsSpecAt c.data c.pos).vd, (paramsSpecAt c.data c.pos).vf,
              by simp [resultAt, hs, hu]⟩, by simp [resultAt, hs, hu]⟩
    · rw [if_neg hu]
      exact ⟨⟨(paramsSpecAt c.data c.pos).rd, (paramsSpecAt c.data c.pos).rf,
              by simp [resultAt, hs, hu]⟩, by simp [resultAt, hs, hu]⟩

theorem C2_classification_witness :
    16 ≤ declaredLenAt buf38.data buf38.pos ∧
    (if 18 ≤ subU32 (declaredLenAt buf38.data buf38.pos) 18 then
      (∃ dv fv, r38.vector_mask =
        some { firstAt buf38.data (buf38.pos + 4) with density := dv, feather := fv }) ∧
      (∃ dr fr, r38.raster_mask =
        some { secondAt buf38.data (buf38.pos + 22) with density := dr, feather := fr })
    else if (firstAt buf38.data (buf38.pos + 4)).user_mask_came_from_rendering_other_data then
      (∃ dv fv, r38.vector_mask =
        some { firstAt buf38.data (buf38.pos + 4) with density := dv, feather := fv }) ∧
      r38.raster_mask = none
    else
      (∃ dr fr, r38.raster_mask =
        some { firstAt buf38.data (buf38.pos + 4) with density := dr, feather := fr }) ∧
      r38.vector_mask = none) :=
  ⟨by decide,
   C2_classification buf38 r38 ⟨buf38.data, 42, 42⟩ (by decide) (by rfl)⟩

end Psd

namespace Psd

/-- C5 counterexample: with declared length 16 only `16 - 18` (i.e. fewer
than 18, in fact negative) declared bytes remain after the 18-byte first
record, yet on a large enough buffer the decode succeeds and a second record
IS decoded (both descriptors present) — the wrapping subtraction defeats the
"exactly when at least 18 declared bytes remain" condition. -/
theorem C5_second_record_condition_counterexample :
    (read_layer_mask_data big16).toOption.map
        (fun x => (x.1.vector_mask.isSome, x.1.raster_mask.isSome)) = some (true, true) ∧
    declaredLenAt big16.data big16.pos - 18 < 18 :=
  ⟨rfl, by decide⟩

/-- C5 amended: for a successfully decoded section with `declared_len ≥ 16`,
the first record is decoded from the 18 bytes after the prefix in the order
rectangle (4 × big-endian i32), `default_color`, `flags` (the layout of
`firstAt`); a second record is decoded exactly when the wrapping u32
difference `declared_len - 18` is at least 18, which holds iff
`declared_len ≥ 36` or `declared_len ∈ {16, 17}` (underflow); when decoded it
is read in the reversed order `flags`, `default_color`, rectangle (the layout
of `secondAt`). -/
theorem C5_record_layout_amended (c : PsdCursor) (r : LayerMaskData) (c' : PsdCursor)
    (hL : 16 ≤ declaredLenAt c.data c.pos)
    (h : read_layer_mask_data c = .ok (r, c')) :
    readFirstMask { c with pos := c.pos + 4 } =
      .ok (firstAt c.data (c.pos + 4), { c with pos := c.pos + 22 }) ∧
    (18 ≤ subU32 (declaredLenAt c.data c.pos) 18 ↔
      36 ≤ declaredLenAt c.data c.pos ∨ declaredLenAt c.data c.pos = 16 ∨
        declaredLenAt c.data c.pos = 17) ∧
    ((r.vector_mask.isSome = true ∧ r.raster_mask.isSome = true) ↔
      18 ≤ subU32 (declaredLenAt c.data c.pos) 18) ∧
    (18 ≤ subU32 (declaredLenAt c.data c.pos) 18 →
      readSecondMask { c with pos := c.pos + 22 } =
        .ok (secondAt c.data (c.pos + 22), { c with pos := c.pos + 40 })) := by
  obtain ⟨h1, -, -, -, hle⟩ := read_ok_main hL h
  have hge := rcTotalAt_ge c.data c.pos
  have hlt := beAt_lt_four c.data c.pos
  have h22 : c.pos + 4 + 18 ≤ c.len := by
    unfold endPosAt at hle
    omega
  have hiff : 18 ≤ subU32 (declaredLenAt c.data c.pos) 18 ↔
      36 ≤ declaredLenAt c.data c.pos ∨ declaredLenAt c.data c.pos = 16 ∨
        declaredLenAt c.data c.pos = 17 := by
    by_cases h18 : 18 ≤ declaredLenAt c.data c.pos
    · rw [subU32_of_le h18 hlt]
      omega
    · rw [subU32_of_lt (by omega) (by norm_num)]
      omega
  refine ⟨?_, hiff, ?_, fun hs => ?_⟩
  · rw [readFirstMask_eq { c with pos := c.pos + 4 } (by dsimp only; omega)]
  · subst h1
    by_cases hs : 18 ≤ subU32 (declaredLenAt c.data c.pos) 18
    · simp [resultAt, hs]
    · by_cases hu : (firstAt c.data (c.pos + 4)).user_mask_came_from_rendering_other_data <;>
        simp [resultAt, hs, hu]
  · have h40 : c.pos + 4 + 18 + 18 ≤ c.len := by
      unfold endPosAt rcTotalAt at hle
      rw [if_pos hs] at hle
      omega
    rw [readSecondMask_eq { c with pos := c.pos + 22 } (by dsimp only; omega)]

theorem C5_record_layout_amended_witness :
    16 ≤ declaredLenAt buf38.data buf38.pos ∧
    ((r38.vector_mask.isSome = true ∧ r38.raster_mask.isSome = true) ↔
      18 ≤ subU32 (declaredLenAt buf38.data buf38.pos) 18) :=
  ⟨by decide,
   (C5_record_layout_amended buf38 r38 ⟨buf38.data, 42, 42⟩ (by decide) (by rfl)).2.2.1⟩

end Psd

namespace Psd

/-- C6: a parameter block is read iff the first record's flags have bit 4
(`MASKS_HAVE_PARAMETERS_APPLIED`) set. When clear, nothing is read, the
cursor and read count are unchanged, and all four parameter values stay
`0`/`0.0`. When set, one `parameter_flags` byte is read and then, in this
order and each only when its bit is set: bit 0 → 1-byte raster density,
bit 1 → 8-byte raster feather, bit 2 → 1-byte vector density, bit 3 → 8-byte
vector feather; any value whose gating bit is clear stays `0` (not 255). -/
theorem C6_parameter_block (flags : Nat) (c : PsdCursor) (rc : Nat)
    (rd rf vd vf : Nat) (c' : PsdCursor) (rc' : Nat)
    (h : readParamBlock flags c rc = .ok (rd, rf, vd, vf, c', rc')) :
    (flags &&& MASKS_HAVE_PARAMETERS_APPLIED = 0 →
      rd = 0 ∧ rf = 0 ∧ vd = 0 ∧ vf = 0 ∧ c' = c ∧ rc' = rc) ∧
    (flags &&& MASKS_HAVE_PARAMETERS_APPLIED ≠ 0 →
      (let pb := byteAt c.data c.pos
       let w1 : Nat := if pb &&& USER_MASK_DENSITY != 0 then 1 else 0
       let w2 : Nat := if pb &&& USER_MASK_FEATHER != 0 then 8 else 0
       let w3 : Nat := if pb &&& VECTOR_MASK_DENSITY != 0 then 1 else 0
       let w4 : Nat := if pb &&& VECTOR_MASK_FEATHER != 0 then 8 else 0
       rd = (if pb &&& USER_MASK_DENSITY != 0 then byteAt c.data (c.pos + 1) else 0) ∧
       rf = (if pb &&& USER_MASK_FEATHER != 0 then beAt c.data (c.pos + 1 + w1) 8 else 0) ∧
       vd = (if pb &&& VECTOR_MASK_DENSITY != 0 then byteAt c.data (c.pos + 1 + w1 + w2) else 0) ∧
       vf = (if pb &&& VECTOR_MASK_FEATHER != 0 then beAt c.data (c.pos + 1 + w1 + w2 + w3) 8 else 0) ∧
       c'.pos = c.pos + (1 + w1 + w2 + w3 + w4) ∧
       rc' = rc + (1 + w1 + w2 + w3 + w4))) := by
  have hinv := readParamBlock_ok_inv h
  simp only [Prod.mk.injEq] at hinv
  obtain ⟨e1, e2, e3, e4, e5, e6⟩ := hinv
  constructor
  · intro hm
    have hmb : (flags &&& MASKS_HAVE_PARAMETERS_APPLIED != 0) = false := by simp [hm]
    refine ⟨?_, ?_, ?_, ?_, ?_, ?_⟩ <;> simp [e1, e2, e3, e4, e5, e6, paramsAt, hmb]
  · intro hm
    have hmb : (flags &&& MASKS_HAVE_PARAMETERS_APPLIED != 0) = true := by simp [hm]
    refine ⟨?_, ?_, ?_, ?_, ?_, ?_⟩ <;> simp [e1, e2, e3, e4, e5, e6, paramsAt, hmb]

end Psd

namespace Psd

/-- A standalone parameter-block buffer: parameter flags 3, density byte 7,
feather bytes 64,1,2,3,4,5,6,7. -/
def bufP : PsdCursor := listCursor [3, 7, 64, 1, 2, 3, 4, 5, 6, 7]

theorem C6_parameter_block_witness :
    (16 : Nat) &&& MASKS_HAVE_PARAMETERS_APPLIED ≠ 0 ∧
    (7 : Nat) = (if byteAt bufP.data bufP.pos &&& USER_MASK_DENSITY != 0 then
      byteAt bufP.data (bufP.pos + 1) else 0) :=
  ⟨by decide,
   (((C6_parameter_block 16 bufP 0 7 4611969705379694087 0 0 ⟨bufP.data, 10, 10⟩ 10
      (by rfl)).2 (by decide)).1 : _)⟩

end Psd

namespace Psd

/-- C7: when the first record has bit 4 set and the parameter-flags byte is
`0b0000_0011`, exactly 10 extra bytes (1 flag + 1 density + 8 feather) form
the parameter block; the returned `raster_mask` (when present) carries the
density byte and feather float that were read, and the returned `vector_mask`
(when present) keeps `density = 0`, `feather = 0.0` (not 255). -/
theorem C7_param_flags_three (c : PsdCursor) (r : LayerMaskData) (c' : PsdCursor)
    (hL : 16 ≤ declaredLenAt c.data c.pos)
    (hbit : byteAt c.data (c.pos + 21) &&& MASKS_HAVE_PARAMETERS_APPLIED ≠ 0)
    (hpb : byteAt c.data (paramPosAt c.data c.pos) = 3)
    (h : read_layer_mask_data c = .ok (r, c')) :
    (paramsSpecAt c.data c.pos).nbytes = 10 ∧
    (∀ m, r.raster_mask = some m →
      m.density = byteAt c.data (paramPosAt c.data c.pos + 1) ∧
      m.feather = beAt c.data (paramPosAt c.data c.pos + 2) 8) ∧
    (∀ m, r.vector_mask = some m → m.density = 0 ∧ m.feather = 0) := by
  obtain ⟨h1, -, -, -, -⟩ := read_ok_main hL h
  subst h1
  have hmb : (byteAt c.data (c.pos + 21) &&& MASKS_HAVE_PARAMETERS_APPLIED != 0) = true := by
    simp [hbit]
  have hps : paramsSpecAt c.data c.pos =
      { rd := byteAt c.data (paramPosAt c.data c.pos + 1),
        rf := beAt c.data (paramPosAt c.data c.pos + 2) 8,
        vd := 0, vf := 0, nbytes := 10 } := by
    unfold paramsSpecAt paramsAt
    rw [hpb, hmb]
    norm_num [USER_MASK_DENSITY, USER_MASK_FEATHER, VECTOR_MASK_DENSITY, VECTOR_MASK_FEATHER,
      show (3 : Nat) &&& 1 = 1 by decide, show (3 : Nat) &&& 2 = 2 by decide,
      show (3 : Nat) &&& 4 = 0 by decide, show (3 : Nat) &&& 8 = 0 by decide]
  refine ⟨by rw [hps], ?_, ?_⟩
  · intro m hm
    by_cases hs : 18 ≤ subU32 (declaredLenAt c.data c.pos) 18 <;>
      by_cases hu : (firstAt c.data (c.pos + 4)).user_mask_came_from_rendering_other_data = true <;>
      simp [resultAt, hs, hu, hps] at hm <;>
      subst hm <;> simp
  · intro m hm
    by_cases hs : 18 ≤ subU32 (declaredLenAt c.data c.pos) 18 <;>
      by_cases hu : (firstAt c.data (c.pos + 4)).user_mask_came_from_rendering_other_data = true <;>
      simp [resultAt, hs, hu, hps] at hm <;>
      subst hm <;> simp

end Psd

namespace Psd

/-- Section with declared length 28: first record with flags 16 (bit 4 set),
parameter flags 3, density byte 7, feather bytes 64,1,2,3,4,5,6,7. -/
def bufC7 : PsdCursor :=
  listCursor ([0, 0, 0, 28] ++ List.replicate 16 0 ++ [5, 16, 3, 7] ++ [64, 1, 2, 3, 4, 5, 6, 7])

theorem C7_param_flags_three_witness :
    16 ≤ declaredLenAt bufC7.data bufC7.pos ∧
    byteAt bufC7.data (bufC7.pos + 21) &&& MASKS_HAVE_PARAMETERS_APPLIED ≠ 0 ∧
    byteAt bufC7.data (paramPosAt bufC7.data bufC7.pos) = 3 ∧
    (paramsSpecAt bufC7.data bufC7.pos).nbytes = 10 :=
  ⟨by decide, by decide, by decide,
   (C7_param_flags_three bufC7
     ⟨none, some ⟨0, 0, 0, 0, 5, 16, 7, 4611969705379694087⟩⟩
     ⟨bufC7.data, 32, 32⟩ (by decide) (by decide) (by decide) (by rfl)).1⟩

end Psd

namespace Psd

theorem readN_err_inv {c : PsdCursor} {n : Nat} {e : PsdLayerError}
    (h : c.readN n = .error e) : c.len < c.pos + n := by
  by_cases hb : c.pos + n ≤ c.len
  · rw [readN_eq c n hb] at h
    exact Except.noConfusion h
  · omega

theorem read_err_inv {c : PsdCursor} {n : Nat} {e : PsdLayerError}
    (h : c.read n = .error e) : c.len < c.pos + n := by
  by_cases hb : c.pos + n ≤ c.len
  · rw [read_eq c n hb] at h
    exact Except.noConfusion h
  · omega

theorem readI32_err_inv {c : PsdCursor} {e : PsdLayerError}
    (h : c.readI32 = .error e) : c.len < c.pos + 4 := by
  unfold PsdCursor.readI32 at h
  split at h
  next heq => exact readN_err_inv heq
  next => exact Except.noConfusion h

theorem readFirstMask_err_inv {c : PsdCursor} {e : PsdLayerError}
    (h : readFirstMask c = .error e) : c.len < c.pos + 18 := by
  unfold readFirstMask at h
  split at h
  next heq1 =>
    have := readI32_err_inv heq1
    omega
  next v1 c1 heq1 =>
  obtain ⟨hb1, hx1⟩ := readI32_ok_inv heq1
  injection hx1 with f1 f2
  subst f1 f2
  split at h
  next heq2 =>
    have := readI32_err_inv heq2
    dsimp only at this
    omega
  next v2 c2 heq2 =>
  obtain ⟨hb2, hx2⟩ := readI32_ok_inv heq2
  injection hx2 with f1 f2
  subst f1 f2
  split at h
  next heq3 =>
    have := readI32_err_inv heq3
    dsimp only at this
    omega
  next v3 c3 heq3 =>
  obtain ⟨hb3, hx3⟩ := readI32_ok_inv heq3
  injection hx3 with f1 f2
  subst f1 f2
  split at h
  next heq4 =>
    have := readI32_err_inv heq4
    dsimp only at this
    omega
  next v4 c4 heq4 =>
  obtain ⟨hb4, hx4⟩ := readI32_ok_inv heq4
  injection hx4 with f1 f2
  subst f1 f2
  split at h
  next heq5 =>
    have := readN_err_inv heq5
    dsimp only at this
    omega
  next v5 c5 heq5 =>
  obtain ⟨hb5, hx5⟩ := readN_ok_inv heq5
  injection hx5 with f1 f2
  subst f1 f2
  split at h
  next heq6 =>
    have := readN_err_inv heq6
    dsimp only at this
    omega
  next v6 c6 heq6 =>
  exact Except.noConfusion h

theorem readSecondMask_err_inv {c : PsdCursor} {e : PsdLayerError}
    (h : readSecondMask c = .error e) : c.len < c.pos + 18 := by
  unfold readSecondMask at h
  split at h
  next heq1 =>
    have := readN_err_inv heq1
    omega
  next v1 c1 heq1 =>
  obtain ⟨hb1, hx1⟩ := readN_ok_inv heq1
  injection hx1 with f1 f2
  subst f1 f2
  split at h
  next heq2 =>
    have := readN_err_inv heq2
    dsimp only at this
    omega
  next v2 c2 heq2 =>
  obtain ⟨hb2, hx2⟩ := readN_ok_inv heq2
  injection hx2 with f1 f2
  subst f1 f2
  split at h
  next heq3 =>
    have := readI32_err_inv heq3
    dsimp only at this
    omega
  next v3 c3 heq3 =>
  obtain ⟨hb3, hx3⟩ := readI32_ok_inv heq3
  injection hx3 with f1 f2
  subst f1 f2
  split at h
  next heq4 =>
    have := readI32_err_inv heq4
    dsimp only at this
    omega
  next v4 c4 heq4 =>
  obtain ⟨hb4, hx4⟩ := readI32_ok_inv heq4
  injection hx4 with f1 f2
  subst f1 f2
  split at h
  next heq5 =>
    have := readI32_err_inv heq5
    dsimp only at this
    omega
  next v5 c5 heq5 =>
  obtain ⟨hb5, hx5⟩ := readI32_ok_inv heq5
  injection hx5 with f1 f2
  subst f1 f2
  split at h
  next heq6 =>
    have := readI32_err_inv heq6
    dsimp only at this
    omega
  next v6 c6 heq6 =>
  exact Except.noConfusion h

end Psd

namespace Psd

theorem stepParamByte_err_inv {cond : Bool} {c : PsdCursor} {rc : Nat} {e : PsdLayerError}
    (h : stepParamByte cond c rc = .error e) :
    cond = true ∧ c.len < c.pos + 1 := by
  cases cond with
  | false =>
    simp only [stepParamByte, Bool.false_eq_true, if_false] at h
    exact Except.noConfusion h
  | true =>
    refine ⟨rfl, ?_⟩
    simp only [stepParamByte, if_true] at h
    split at h
    next heq => exact readN_err_inv heq
    next => exact Except.noConfusion h

theorem stepParamF64_err_inv {cond : Bool} {c : PsdCursor} {rc : Nat} {e : PsdLayerError}
    (h : stepParamF64 cond c rc = .error e) :
    cond = true ∧ c.len < c.pos + 8 := by
  cases cond with
  | false =>
    simp only [stepParamF64, Bool.false_eq_true, if_false] at h
    exact Except.noConfusion h
  | true =>
    refine ⟨rfl, ?_⟩
    simp only [stepParamF64, if_true] at h
    split at h
    next heq => exact readN_err_inv heq
    next => exact Except.noConfusion h

theorem stepParamByte_pos {cond : Bool} {c : PsdCursor} {rc : Nat} {out : Nat × PsdCursor × Nat}
    (h : stepParamByte cond c rc = .ok out) :
    out.2.1.data = c.data ∧ out.2.1.len = c.len ∧
    out.2.1.pos = c.pos + (if cond then 1 else 0) := by
  rcases stepParamByte_ok_inv h with ⟨ht, hf⟩
  cases cond with
  | false =>
    rw [hf rfl]
    exact ⟨rfl, rfl, by simp⟩
  | true =>
    obtain ⟨-, he⟩ := ht rfl
    rw [he]
    exact ⟨rfl, rfl, by simp⟩

theorem stepParamF64_pos {cond : Bool} {c : PsdCursor} {rc : Nat} {out : Nat × PsdCursor × Nat}
    (h : stepParamF64 cond c rc = .ok out) :
    out.2.1.data = c.data ∧ out.2.1.len = c.len ∧
    out.2.1.pos = c.pos + (if cond then 8 else 0) := by
  rcases stepParamF64_ok_inv h with ⟨ht, hf⟩
  cases cond with
  | false =>
    rw [hf rfl]
    exact ⟨rfl, rfl, by simp⟩
  | true =>
    obtain ⟨-, he⟩ := ht rfl
    rw [he]
    exact ⟨rfl, rfl, by simp⟩

theorem paramsAt_nbytes_true {flags : Nat} (d : Nat → Nat) (p : Nat)
    (hm : (flags &&& MASKS_HAVE_PARAMETERS_APPLIED != 0) = true) :
    (paramsAt flags d p).nbytes =
      1 + (if byteAt d p &&& USER_MASK_DENSITY != 0 then 1 else 0)
        + (if byteAt d p &&& USER_MASK_FEATHER != 0 then 8 else 0)
        + (if byteAt d p &&& VECTOR_MASK_DENSITY != 0 then 1 else 0)
        + (if byteAt d p &&& VECTOR_MASK_FEATHER != 0 then 8 else 0) := by
  simp only [paramsAt, hm, if_true]

end Psd

namespace Psd

theorem readParamBlock_err_inv {flags : Nat} {c : PsdCursor} {rc : Nat} {e : PsdLayerError}
    (h : readParamBlock flags c rc = .error e) :
    c.len < c.pos + (paramsAt flags c.data c.pos).nbytes := by
  cases hm : (flags &&& MASKS_HAVE_PARAMETERS_APPLIED != 0) with
  | false =>
    simp only [readParamBlock, hm, Bool.false_eq_true, if_false] at h
    exact Except.noConfusion h
  | true =>
    rw [paramsAt_nbytes_true c.data c.pos hm]
    simp only [readParamBlock, hm, if_true] at h
    split at h
    next heq0 =>
      have hb := readN_err_inv heq0
      split_ifs <;> omega
    next pb c1 heq0 =>
    obtain ⟨hb0, hx0⟩ := readN_ok_inv heq0
    injection hx0 with f1 f2
    rw [beAt_one] at f1
    subst f1 f2
    split at h
    next heq1 =>
      obtain ⟨hc1, hbv⟩ := stepParamByte_err_inv heq1
      dsimp only at hbv
      split_ifs <;> first | omega | simp_all
    next v1 c2 rc2 heq1 =>
    have hp1 := stepParamByte_pos heq1
    split at h
    next heq2 =>
      obtain ⟨hc2, hbv⟩ := stepParamF64_err_inv heq2
      obtain ⟨hd1, hl1, hq1⟩ := hp1
      dsimp only at hd1 hl1 hq1
      split_ifs at hq1 ⊢ <;> first | omega | simp_all
    next v2 c3 rc3 heq2 =>
    have hp2 := stepParamF64_pos heq2
    split at h
    next heq3 =>
      obtain ⟨hc3, hbv⟩ := stepParamByte_err_inv heq3
      obtain ⟨hd1, hl1, hq1⟩ := hp1
      obtain ⟨hd2, hl2, hq2⟩ := hp2
      dsimp only at hd1 hl1 hq1 hd2 hl2 hq2
      split_ifs at hq1 hq2 ⊢ <;> first | omega | simp_all
    next v3 c4 rc4 heq3 =>
    have hp3 := stepParamByte_pos heq3
    split at h
    next heq4 =>
      obtain ⟨hc4, hbv⟩ := stepParamF64_err_inv heq4
      obtain ⟨hd1, hl1, hq1⟩ := hp1
      obtain ⟨hd2, hl2, hq2⟩ := hp2
      obtain ⟨hd3, hl3, hq3⟩ := hp3
      dsimp only at hd1 hl1 hq1 hd2 hl2 hq2 hd3 hl3 hq3
      split_ifs at hq1 hq2 hq3 ⊢ <;> first | omega | simp_all
    next v4 c5 rc5 heq4 =>
    exact Except.noConfusion h

end Psd

namespace Psd

/-- C3: `read_layer_mask_data` fails, with the single error kind
`TruncatedOrMalformedSection` and no output, exactly when some requested read
or skip exceeds the bytes available: the 4-byte length prefix itself
(`c.pos + 4 > c.len`), the `declared_len`-byte skip of a short section, or —
for `declared_len ≥ 16` — the record/parameter/padding reads whose last
requested position is `endPosAt` (requests are increasing, so the run fails
iff the buffer cannot satisfy the largest one). In every other case the
decode returns a fully populated result: no partial or best-effort results
exist. -/
theorem C3_truncation_error_iff (c : PsdCursor) :
    (read_layer_mask_data c = .error .TruncatedOrMalformedSection ↔
      c.len < c.pos + 4 ∨
      (declaredLenAt c.data c.pos < 16 ∧
        c.len < c.pos + 4 + declaredLenAt c.data c.pos) ∨
      (16 ≤ declaredLenAt c.data c.pos ∧ c.len < endPosAt c.data c.pos)) ∧
    ∀ e, read_layer_mask_data c = .error e → e = .TruncatedOrMalformedSection := by
  have hsingle : ∀ e, read_layer_mask_data c = .error e →
      e = .TruncatedOrMalformedSection := by
    intro e _
    cases e
    rfl
  refine ⟨⟨?_, ?_⟩, hsingle⟩
  · intro h
    unfold read_layer_mask_data at h
    split at h
    next heq0 =>
      exact .inl (readN_err_inv heq0)
    next L c1 heq0 =>
    obtain ⟨hb0, hx0⟩ := readN_ok_inv heq0
    injection hx0 with f1 f2
    subst f1 f2
    by_cases hL : beAt c.data c.pos 4 < 16
    · rw [if_pos hL] at h
      split at h
      next heq1 =>
        have hv := read_err_inv heq1
        dsimp only at hv
        refine .inr (.inl ⟨hL, ?_⟩)
        show c.len < c.pos + 4 + beAt c.data c.pos 4
        omega
      next c2 heq1 =>
        exact Except.noConfusion h
    · rw [if_neg hL] at h
      have hL16 : 16 ≤ declaredLenAt c.data c.pos := by
        show 16 ≤ beAt c.data c.pos 4
        omega
      refine .inr (.inr ⟨hL16, ?_⟩)
      split at h
      next heq1 =>
        have hv := readFirstMask_err_inv heq1
        dsimp only at hv
        have hge := rcTotalAt_ge c.data c.pos
        unfold endPosAt
        omega
      next fm c2 heq1 =>
      obtain ⟨hb1, hx1⟩ := readFirstMask_ok_inv heq1
      injection hx1 with f1 f2
      subst f1 f2
      simp only [Nat.reduceMul, Nat.reduceAdd] at h
      by_cases hs : 18 ≤ subU32 (beAt c.data c.pos 4) 18
      · rw [if_pos hs] at h
        split at h
        next heqS =>
          split at heqS
          next heq2 =>
            have hv := readSecondMask_err_inv heq2
            dsimp only at hv
            have hnn := Nat.zero_le (paramsSpecAt c.data c.pos).nbytes
            unfold endPosAt rcTotalAt
            rw [if_pos (show 18 ≤ subU32 (declaredLenAt c.data c.pos) 18 from hs)]
            omega
          next m cm heqS2 =>
            exact Except.noConfusion heqS
        next second sm c3 heqS =>
        split at heqS
        next heqS2 =>
          exact Except.noConfusion heqS
        next m cm heqS2 =>
        injection heqS with f0
        injection f0 with f1 f2
        injection f2 with f3 f4
        subst f1 f3 f4
        obtain ⟨hb2, hx2⟩ := readSecondMask_ok_inv heqS2
        injection hx2 with g1 g2
        subst g1 g2
        split at h
        next heqP =>
          have hv := readParamBlock_err_inv heqP
          dsimp only at hv
          simp only [endPosAt, rcTotalAt, paramsSpecAt, paramPosAt, declaredLenAt, firstAt,
            hs, if_pos, if_true] at hv ⊢
          simp only [Nat.add_assoc, Nat.reduceAdd] at hv ⊢
          omega
        next v1 v2 v3 v4 c4 rc4 heqP =>
        have hP := readParamBlock_ok_inv heqP
        simp only [Prod.mk.injEq] at hP
        obtain ⟨e1, e2, e3, e4, e5, e6⟩ := hP
        subst e1 e2 e3 e4 e5 e6
        split at h
        next heqR =>
          have hv := read_err_inv heqR
          dsimp only at hv
          simp only [endPosAt, rcTotalAt, paramsSpecAt, paramPosAt, declaredLenAt, firstAt,
            hs, if_pos, if_true] at hv ⊢
          simp only [Nat.add_assoc, Nat.reduceAdd] at hv ⊢
          omega
        next c5 heqR =>
          exact Except.noConfusion h
      · rw [if_neg hs] at h
        split at h
        next heqS =>
          exact Except.noConfusion heqS
        next second sm c3 heqS =>
        injection heqS with f0
        injection f0 with f1 f2
        injection f2 with f3 f4
        subst f1 f3 f4
        split at h
        next heqP =>
          have hv := readParamBlock_err_inv heqP
          dsimp only at hv
          simp only [endPosAt, rcTotalAt, paramsSpecAt, paramPosAt, declaredLenAt, firstAt,
            hs, if_neg, if_false] at hv ⊢
          simp only [Nat.add_assoc, Nat.reduceAdd] at hv ⊢
          omega
        next v1 v2 v3 v4 c4 rc4 heqP =>
        have hP := readParamBlock_ok_inv heqP
        simp only [Prod.mk.injEq] at hP
        obtain ⟨e1, e2, e3, e4, e5, e6⟩ := hP
        subst e1 e2 e3 e4 e5 e6
        split at h
        next heqR =>
          have hv := read_err_inv heqR
          dsimp only at hv
          simp only [endPosAt, rcTotalAt, paramsSpecAt, paramPosAt, declaredLenAt, firstAt,
            hs, if_neg, if_false] at hv ⊢
          simp only [Nat.add_assoc, Nat.reduceAdd] at hv ⊢
          omega
        next c5 heqR =>
          exact Except.noConfusion h
  · intro h
    cases hres : read_layer_mask_data c with
    | error e =>
      cases e
      rfl
    | ok x =>
      exfalso
      obtain ⟨r, c'⟩ := x
      rcases h with hA | ⟨hB1, hB2⟩ | ⟨hC1, hC2⟩
      · by_cases hL : declaredLenAt c.data c.pos < 16
        · obtain ⟨-, -, -, -, hbound⟩ := read_ok_low hL hres
          omega
        · obtain ⟨-, -, -, -, hbound⟩ := read_ok_main (by omega) hres
          have hge := rcTotalAt_ge c.data c.pos
          unfold endPosAt at hbound
          omega
      · obtain ⟨-, -, -, -, hbound⟩ := read_ok_low hB1 hres
        omega
      · obtain ⟨-, -, -, -, hbound⟩ := read_ok_main hC1 hres
        omega

end Psd

namespace Psd

theorem C3_truncation_error_iff_witness :
    read_layer_mask_data (listCursor [0, 0, 0]) =
      .error .TruncatedOrMalformedSection ∧
    read_layer_mask_data (listCursor [0, 0, 0, 20, 1, 2, 3]) =
      .error .TruncatedOrMalformedSection :=
  ⟨(C3_truncation_error_iff (listCursor [0, 0, 0])).1.mpr (.inl (by decide)),
   (C3_truncation_error_iff (listCursor [0, 0, 0, 20, 1, 2, 3])).1.mpr
     (.inr (.inr ⟨by decide, by decide⟩))⟩

end Psd
